import Mathlib

/-!
Verification of the serial console session engine (`ntfc.device.serial` /
`ntfc.device.common`), shallowly embedded over explicit environments.

Modelling conventions:
* Byte strings become `List Nat`; wall-clock times become `Nat` seconds.
* Each transport read delivers the chunk an environment (`Iter`) prescribes
  for that poll iteration together with the value of the clock there.
* Python exceptions become the `PyErr` error monad; an environment that is
  too short to drive a loop to one of its exits yields `Option.none`
  ("not enough modelled iterations"), distinct from every program outcome.
* The optional console log sink (`_logs`) is `None` throughout, as after
  construction, so `_console_log` is a no-op and is not modelled.
* Regex search (`re.search`) is modelled for literal byte patterns as the
  leftmost-occurrence substring search `bytesFind`.
-/

namespace Ntfc

/-- Python exceptions raised by the engine. -/
inductive PyErr
  | ioError (msg : String)
  | indexError
  | typeError
  | valueError (msg : String)
  | timeoutError (msg : String)
  | unboundLocalError (name : String)
  deriving DecidableEq

instance {ε α : Type} [DecidableEq ε] [DecidableEq α] : DecidableEq (Except ε α) := fun x y =>
  match x, y with
  | .ok a, .ok b =>
      if h : a = b then .isTrue (by rw [h]) else .isFalse (by simp [h])
  | .error a, .error b =>
      if h : a = b then .isTrue (by rw [h]) else .isFalse (by simp [h])
  | .ok _, .error _ => .isFalse (by simp)
  | .error _, .ok _ => .isFalse (by simp)

/-- Outcome of a modelled call: `none` means the modelled environment ran out
of poll iterations before the code reached any of its own exits. -/
abbrev PyM (α : Type) : Type := Option (Except PyErr α)

/-- Normal return. -/
def PyM.ok {α : Type} (a : α) : PyM α := some (.ok a)

/-- A raised Python exception. -/
def PyM.err {α : Type} (e : PyErr) : PyM α := some (.error e)

/-- Environment exhausted (model artefact, not a program outcome). -/
def PyM.fuel {α : Type} : PyM α := none

/-- Sequencing with exception propagation. -/
def PyM.bind {α β : Type} : PyM α → (α → PyM β) → PyM β
  | none, _ => none
  | some (.error e), _ => some (.error e)
  | some (.ok a), f => f a

instance {α : Type} [DecidableEq α] : DecidableEq (PyM α) :=
  inferInstanceAs (DecidableEq (Option (Except PyErr α)))

/-! ## Data model (`common.py`) -/

/-- `CmdStatus` (`IntEnum`): SUCCESS = 0, NOTFOUND = -1, TIMEOUT = -2. -/
inductive CmdStatus
  | SUCCESS
  | NOTFOUND
  | TIMEOUT
  deriving DecidableEq, BEq

/-- Numeric values of the `IntEnum` members. -/
def CmdStatus.toInt : CmdStatus → Int
  | .SUCCESS => 0
  | .NOTFOUND => -1
  | .TIMEOUT => -2

/-- `CmdReturn` dataclass.  `rematch` models the optional `re.Match` as the
matched span (start, stop); a match object is always truthy. -/
structure CmdReturn where
  status : CmdStatus
  rematch : Option (Nat × Nat) := none
  output : List Nat := []
  deriving DecidableEq

/-- `CmdReturn.valid_match`: `bool((status == CmdStatus.SUCCESS) and rematch)`. -/
def CmdReturn.valid_match (r : CmdReturn) : Bool :=
  (r.status == CmdStatus.SUCCESS) && r.rematch.isSome

/-! ## Python dynamic values, for the spots where the source mixes types -/

/-- A Python value as it appears at the two type-confused call sites. -/
inductive PyVal
  | vint (n : Nat)
  | vbytes (b : List Nat)
  | vstr (s : String)
  deriving DecidableEq

/-- Python `==`/`!=` across these types: values of distinct types among
int, bytes and str always compare unequal. -/
def pyEq : PyVal → PyVal → Bool
  | .vint a, .vint b => a == b
  | .vbytes a, .vbytes b => a == b
  | .vstr a, .vstr b => a == b
  | _, _ => false

/-- The Python `bytes(list)` constructor: accepts a list of ints in
`[0, 256)`; a str element raises `TypeError`. -/
def pyBytes : List PyVal → Except PyErr (List Nat)
  | [] => .ok []
  | .vint n :: rest =>
      if n < 256 then (pyBytes rest).map (fun bs => n :: bs)
      else .error (.valueError "bytes must be in range 0..255")
  | .vstr _ :: _ => .error .typeError
  | .vbytes _ :: _ => .error .typeError

/-! ## Session state and OS profile -/

/-- The OS profile fields the engine consumes. -/
structure OSProfile where
  prompt : List Nat
  crash_keys : List (List Nat)
  deriving DecidableEq

/-- Mutable session state of `DeviceSerial`: `_ser` (transport open),
the `_crash` and `_busy_loop` events, and `_busy_loop_last` (0 = unset). -/
structure SessionState where
  ser : Bool
  crash : Bool
  busy_loop : Bool
  busy_loop_last : Nat
  deriving DecidableEq

/-- `_dev_is_health`: open, not crashed, not busy-looping. -/
def dev_is_health (s : SessionState) : Bool :=
  s.ser && !s.crash && !s.busy_loop

/-! ## ANSI escape stripping (the regex in `_read_all`) -/

/-- Final byte of a CSI sequence: `[@-~]`. -/
def ansiFinal (c : Nat) : Bool := 0x40 ≤ c && c ≤ 0x7E

/-- CSI parameter byte: `[0-?]`. -/
def ansiParam (c : Nat) : Bool := 0x30 ≤ c && c ≤ 0x3F

/-- CSI intermediate byte: space through slash (0x20 to 0x2F). -/
def ansiInter (c : Nat) : Bool := 0x20 ≤ c && c ≤ 0x2F

/-- Single-byte escape tail: `[@-Z\\-_]`. -/
def ansiSingle (c : Nat) : Bool :=
  (0x40 ≤ c && c ≤ 0x5A) || (0x5C ≤ c && c ≤ 0x5F)

/-- Match the tail of `ESC [ params inters final`; returns the rest. -/
def csiMatch (l : List Nat) : Option (List Nat) :=
  match (l.dropWhile (fun c => ansiParam c)).dropWhile (fun c => ansiInter c) with
  | c :: rest => if ansiFinal c then some rest else none
  | [] => none

/-- Match what follows an ESC byte; returns the rest on a regex match. -/
def ansiTryMatch : List Nat → Option (List Nat)
  | [] => none
  | c :: rest =>
      if ansiSingle c then some rest
      else if c = 0x5B then csiMatch rest
      else none

/-- Leftmost, non-overlapping removal of ANSI escape sequences, with fuel
(one unit per consumed byte suffices). -/
def ansiStripFuel : Nat → List Nat → List Nat
  | 0, l => l
  | _ + 1, [] => []
  | fuel + 1, c :: rest =>
      if c = 0x1B then
        match ansiTryMatch rest with
        | some rest2 => ansiStripFuel fuel rest2
        | none => c :: ansiStripFuel fuel rest
      else c :: ansiStripFuel fuel rest

/-- `ansi_escape.sub(b"", output)` for the regex in `_read_all`. -/
def ansiStrip (l : List Nat) : List Nat := ansiStripFuel l.length l

/-! ## The bounded read loop `_read_all` -/

/-- One poll iteration of the environment: the chunk `self._ser.read`
delivers and the value of `time.time()` at that iteration. -/
structure Iter where
  chunk : List Nat
  now : Nat
  deriving DecidableEq

/-- An environment for one `_read_all` call: the `time.time()` value used
for `end_time` and the per-iteration data. -/
structure ReadEnv where
  time : Nat
  iters : List Iter
  deriving DecidableEq

/-- `_read`: returns the available chunk when healthy, `b""` otherwise.
(The not-open branch raises before the loop is ever entered; `_ser` cannot
change during one `_read_all` run.) -/
def read (s : SessionState) (chunk : List Nat) : List Nat :=
  if dev_is_health s then chunk else []

/-- The `_busy_loop_last` update at the end of a loop iteration: a
non-empty chunk resets the last-activity clock to now. -/
def next_last (s : SessionState) (it : Iter) : SessionState :=
  if read s it.chunk = [] then s else { s with busy_loop_last := it.now }

/-- Python `pat in s` on bytes: `pat` occurs as a contiguous substring. -/
def inBytes (pat : List Nat) : List Nat → Bool
  | [] => pat.isEmpty
  | c :: rest => pat.isPrefixOf (c :: rest) || inBytes pat rest

/-- `any(key in output for key in self._dev.crash_keys)`. -/
def any_crash_key (keys : List (List Nat)) (output : List Nat) : Bool :=
  keys.any (fun k => inBytes k output)

/-- The `while True` loop of `_read_all`, iteration environment as fuel.
Returns the final session state and the raw accumulated output, or `none`
when the environment is exhausted before any of the loop's exits. -/
def read_all_loop (keys : List (List Nat)) (end_time : Nat) :
    List Iter → SessionState → List Nat → Option (SessionState × List Nat)
  | [], _, _ => none
  | it :: rest, s, output =>
      let chunk := read s it.chunk
      let output2 := output ++ chunk
      if any_crash_key keys output2 then
        some ({ s with crash := true }, output2)
      else if chunk = [] ∧ s.busy_loop_last ≠ 0 ∧ 180 < it.now - s.busy_loop_last then
        some ({ s with busy_loop := true, busy_loop_last := 0 }, output2)
      else
        let s2 := next_last s it
        if end_time < it.now then some (s2, output2)
        else read_all_loop keys end_time rest s2 output2

/-- `_read_all(timeout)`: raise if the transport is not open, short-circuit
to `b""` when unhealthy, otherwise run the loop and strip ANSI sequences. -/
def read_all (keys : List (List Nat)) (now : Nat) (timeout : Nat)
    (iters : List Iter) (s : SessionState) : PyM (SessionState × List Nat) :=
  if !s.ser then PyM.err (.ioError "serial device is not open")
  else if !dev_is_health s then PyM.ok (s, [])
  else
    match read_all_loop keys (now + timeout) iters s [] with
    | none => PyM.fuel
    | some (s2, output) => PyM.ok (s2, ansiStrip output)

/-! ## Writing (`_write`, `_write_ctrl`) -/

/-- `_write(data)`: raise when not open; no-op when unhealthy; otherwise
write `data` byte by byte, then write `b"\n"` unless `data[-1] != b"\n"`
fails (an int never equals `b"\n"`), then drain the character echo with a
zero-timeout `_read_all`.  Returns the state after the echo drain and the
bytes put on the transport. -/
def write (keys : List (List Nat)) (echo : ReadEnv) (s : SessionState)
    (data : List Nat) : PyM (SessionState × List Nat) :=
  if !s.ser then PyM.err (.ioError "Host device is not open")
  else if !dev_is_health s then PyM.ok (s, [])
  else
    match data.getLast? with
    | none => PyM.err .indexError
    | some lastByte =>
        let written :=
          if pyEq (.vint lastByte) (.vbytes [10]) then data else data ++ [10]
        PyM.bind (read_all keys echo.time 0 echo.iters s)
          (fun p => PyM.ok (p.1, written))

/-- `_write_ctrl(c)`: raise when not open; no-op when unhealthy; otherwise
`self._ser.write(bytes([c]))` with `c` a one-character str. -/
def write_ctrl (s : SessionState) (c : Char) : PyM SessionState :=
  if !s.ser then PyM.err (.ioError "serial device is not open")
  else if !dev_is_health s then PyM.ok s
  else
    match pyBytes [PyVal.vstr (String.singleton c)] with
    | .error e => PyM.err e
    | .ok _ => PyM.ok s

/-! ## `send_command` and `send_ctrl_cmd` -/

/-- Environment for one `send_command` call: the drain read, the echo read
inside `_write`, and the response read. -/
structure SendCmdEnv where
  drain : ReadEnv
  echo : ReadEnv
  resp : ReadEnv
  deriving DecidableEq

/-- `send_command(cmd, timeout)`: raise when not open; drain pending output
(zero-timeout read), `_write` the command, then read the response for
`timeout`.  Returns (state, response, bytes written). -/
def send_command (keys : List (List Nat)) (env : SendCmdEnv)
    (s : SessionState) (cmd : List Nat) (timeout : Nat) :
    PyM (SessionState × List Nat × List Nat) :=
  if !s.ser then PyM.err (.ioError "Serial device not ready")
  else
    PyM.bind (read_all keys env.drain.time 0 env.drain.iters s) (fun p1 =>
    PyM.bind (write keys env.echo p1.1 cmd) (fun p2 =>
    PyM.bind (read_all keys env.resp.time timeout env.resp.iters p2.1) (fun p3 =>
    PyM.ok (p3.1, p3.2, p2.2))))

/-- `send_ctrl_cmd(ctrl_char)`: raise when not open, `_write_ctrl`, then
report SUCCESS. -/
def send_ctrl_cmd (s : SessionState) (c : Char) : PyM (SessionState × CmdStatus) :=
  if !s.ser then PyM.err (.ioError "Serial device is not open")
  else
    PyM.bind (write_ctrl s c) (fun s1 => PyM.ok (s1, CmdStatus.SUCCESS))

/-! ## `send_cmd_read_until_pattern` -/

/-- Leftmost occurrence of the literal byte pattern `pat` in a suffix,
carrying the absolute start index; returns the matched span. -/
def bytesFindAux (pat : List Nat) : List Nat → Nat → Option (Nat × Nat)
  | [], i => if pat.isPrefixOf [] then some (i, i + pat.length) else none
  | c :: rest, i =>
      if pat.isPrefixOf (c :: rest) then some (i, i + pat.length)
      else bytesFindAux pat rest (i + 1)

/-- `re.search(pattern, output)` for a literal byte pattern: the leftmost
matched span, if any. -/
def bytesFind (pat s : List Nat) : Option (Nat × Nat) := bytesFindAux pat s 0

/-- The accumulator cap: keep only the most recent 10000 bytes once the
accumulator exceeds that size. -/
def trunc (output : List Nat) : List Nat :=
  if 10000 < output.length then output.drop (output.length - 10000) else output

/-- How the match loop of `send_cmd_read_until_pattern` exited. -/
inductive PatOut
  | success (span : Nat × Nat)
  | timedOut
  | unhealthy
  deriving DecidableEq

/-- One iteration of the match loop: environment for the inner `_read_all`
call, and `time.time()` at the deadline check. -/
structure PatIter where
  readEnv : ReadEnv
  now : Nat
  deriving DecidableEq

/-- The `while True` match loop of `send_cmd_read_until_pattern`.  `output`
is the (truncated) accumulator; `total` is a ghost: the untruncated
concatenation of everything read so far.  Returns the final state, the
final accumulator, the exit kind, and the ghost trace of (accumulator,
total-read-so-far) pairs at each `re.search` attempt. -/
def pat_loop (keys : List (List Nat)) (pattern : List Nat) (end_time : Nat) :
    List PatIter → SessionState → List Nat → List Nat →
    PyM (SessionState × List Nat × PatOut × List (List Nat × List Nat))
  | [], _, _, _ => PyM.fuel
  | it :: rest, s, output, total =>
      PyM.bind (read_all keys it.readEnv.time 1 it.readEnv.iters s) (fun p =>
        let s1 := p.1
        let output1 := trunc (output ++ p.2)
        let total1 := total ++ p.2
        match bytesFind pattern output1 with
        | some span => PyM.ok (s1, output1, .success span, [(output1, total1)])
        | none =>
            if end_time < it.now then
              PyM.ok (s1, output1, .timedOut, [(output1, total1)])
            else if !dev_is_health s1 then
              PyM.ok (s1, output1, .unhealthy, [(output1, total1)])
            else
              PyM.bind (pat_loop keys pattern end_time rest s1 output1 total1)
                (fun q => PyM.ok (q.1, q.2.1, q.2.2.1, (output1, total1) :: q.2.2.2)))

/-- Environment for one `send_cmd_read_until_pattern` call. -/
structure PatEnv where
  clear : ReadEnv
  send : SendCmdEnv
  start_time : Nat
  iters : List PatIter
  deriving DecidableEq

/-- `send_cmd_read_until_pattern(cmd, pattern, timeout)`: clear the buffer
(`_read_all()` with its default 1s timeout), send the command with a zero
read-timeout, then loop: read, truncate the accumulator to the last 10000
bytes, search; exit on match (SUCCESS), deadline (TIMEOUT), or unhealthy
device — on the unhealthy exit the local `ret` was never assigned, so
building the `CmdReturn` raises `UnboundLocalError`.  The ghost trace of
the match loop is returned alongside. -/
def send_cmd_read_until_pattern (keys : List (List Nat)) (env : PatEnv)
    (s : SessionState) (cmd pattern : List Nat) (timeout : Nat) :
    PyM (SessionState × CmdReturn × List (List Nat × List Nat)) :=
  PyM.bind (read_all keys env.clear.time 1 env.clear.iters s) (fun p0 =>
  PyM.bind (send_command keys env.send p0.1 cmd 0) (fun p1 =>
  PyM.bind (pat_loop keys pattern (env.start_time + timeout) env.iters p1.1
      p1.2.1 p1.2.1) (fun q =>
    match q.2.2.1 with
    | .success span => PyM.ok (q.1, ⟨.SUCCESS, some span, q.2.1⟩, q.2.2.2)
    | .timedOut => PyM.ok (q.1, ⟨.TIMEOUT, none, q.2.1⟩, q.2.2.2)
    | .unhealthy => PyM.err (.unboundLocalError "ret"))))

/-! ## Boot synchronisation (`_wait_for_boot`, `start`) -/

/-- One boot-poll attempt: `time.time()` at the `while` check and the
environment for the inner `send_command(b"\n", 1)`. -/
structure BootAttempt where
  now : Nat
  env : SendCmdEnv
  deriving DecidableEq

/-- `_wait_for_boot(timeout=5)`: while the clock is before `end_time`, send
a bare newline and look for the prompt in the response. -/
def wait_for_boot (keys : List (List Nat)) (prompt : List Nat) (end_time : Nat) :
    List BootAttempt → SessionState → PyM (SessionState × Bool)
  | [], _ => PyM.fuel
  | att :: rest, s =>
      if att.now < end_time then
        PyM.bind (send_command keys att.env s [10] 1) (fun p =>
          if inBytes prompt p.2.1 then PyM.ok (p.1, true)
          else wait_for_boot keys prompt end_time rest p.1)
      else PyM.ok (s, false)

/-! ## Connection-string decoding (`_decode_exec_args`) -/

/-- Decimal digit value. -/
def digitVal (c : Char) : Option Nat :=
  if '0' ≤ c ∧ c ≤ '9' then some (c.toNat - '0'.toNat) else none

/-- Value of a non-empty all-digit character list; `none` otherwise. -/
def digitsVal (cs : List Char) : Option Nat :=
  if cs = [] then none
  else
    cs.foldl
      (fun acc c =>
        match acc, digitVal c with
        | some a, some d => some (a * 10 + d)
        | _, _ => none)
      (some 0)

/-- Digits to a number, empty list reading as 0 (for fraction parts). -/
def digitsVal0 (cs : List Char) : Nat :=
  cs.foldl (fun acc c => acc * 10 + (c.toNat - 48)) 0

/-- Python `int(s)` on the decimal forms used here: optional sign then
digits.  (Surrounding whitespace and underscore separators are not
modelled.) -/
def pyIntParse (s : String) : Option Int :=
  match s.data with
  | '-' :: rest => (digitsVal rest).map (fun n => -(n : Int))
  | '+' :: rest => (digitsVal rest).map (fun n => (n : Int))
  | cs => (digitsVal cs).map (fun n => (n : Int))

/-- Numerator and denominator of an unsigned decimal float literal:
digits, optionally a dot and more digits, at least one digit in total. -/
def floatParts (cs : List Char) : Option (Nat × Nat) :=
  let intPart := cs.takeWhile Char.isDigit
  let rest := cs.dropWhile Char.isDigit
  match rest with
  | [] => (digitsVal intPart).map (fun n => (n, 1))
  | '.' :: fracPart =>
      if fracPart.all Char.isDigit ∧ (intPart ≠ [] ∨ fracPart ≠ []) then
        some (digitsVal0 intPart * 10 ^ fracPart.length + digitsVal0 fracPart,
          10 ^ fracPart.length)
      else none
  | _ => none

/-- Python `float(s)` on the decimal forms used here, as an exact rational.
(Exponent notation, inf/nan and whitespace are not modelled; the values
compared against — 1, 1.5, 2 — are exactly representable.) -/
def pyFloatParse (s : String) : Option ℚ :=
  match s.data with
  | '-' :: rest => (floatParts rest).map (fun p => Rat.divInt (-(p.1 : Int)) (p.2 : Int))
  | '+' :: rest => (floatParts rest).map (fun p => Rat.divInt (p.1 : Int) (p.2 : Int))
  | cs => (floatParts cs).map (fun p => Rat.divInt (p.1 : Int) (p.2 : Int))

/-- Python `args.split(",")` (character-level, every comma splits). -/
def splitCommaAux : List Char → List Char → List (List Char)
  | [], acc => [acc.reverse]
  | c :: rest, acc =>
      if c = ',' then acc.reverse :: splitCommaAux rest []
      else splitCommaAux rest (c :: acc)

/-- `args.split(",")` as Lean strings. -/
def pySplitComma (s : String) : List String :=
  (splitCommaAux s.data []).map (fun cs => String.mk cs)

/-- `serial` parity constants. -/
inductive Parity
  | none
  | even
  | odd
  | mark
  | space
  deriving DecidableEq

/-- `parity_map.get(parity, serial.PARITY_NONE)`. -/
def parity_map (p : String) : Parity :=
  if p = "n" ∨ p = "N" then Parity.none
  else if p = "e" ∨ p = "E" then Parity.even
  else if p = "o" ∨ p = "O" then Parity.odd
  else if p = "m" ∨ p = "M" then Parity.mark
  else if p = "s" ∨ p = "S" then Parity.space
  else Parity.none

/-- `bytesize_map.get(int(data_bits), serial.EIGHTBITS)`. -/
def bytesize_map (n : Int) : Nat :=
  if n = 5 then 5
  else if n = 6 then 6
  else if n = 7 then 7
  else if n = 8 then 8
  else 8

/-- `stopbits_map.get(float(stop_bits), serial.STOPBITS_ONE)`. -/
def stopbits_map (q : ℚ) : ℚ :=
  if q = 1 then 1
  else if q = Rat.divInt 3 2 then Rat.divInt 3 2
  else if q = 2 then 2
  else 1

/-- The decoded keyword arguments passed to `serial.Serial`. -/
structure ExecArgsDecoded where
  baudrate : Int
  parity : Parity
  bytesize : Nat
  stopbits : ℚ
  deriving DecidableEq

/-- The `ValueError` message: the original connection string is embedded. -/
def invalid_format_msg (args : String) : String := "Invalid format: " ++ args

/-- `_decode_exec_args(args)`: unpack exactly 4 comma-separated fields,
parse `int(baud)`, look up parity with a PARITY_NONE default, parse
`int(data_bits)` and `float(stop_bits)` with EIGHTBITS / STOPBITS_ONE
defaults; any exception along the way is re-raised as the ValueError
carrying the original string. -/
def decode_exec_args (args : String) : Except String ExecArgsDecoded :=
  match pySplitComma args with
  | [baud, par, dataBits, stopBits] =>
      match pyIntParse baud with
      | Option.none => .error (invalid_format_msg args)
      | some b =>
          match pyIntParse dataBits with
          | Option.none => .error (invalid_format_msg args)
          | some db =>
              match pyFloatParse stopBits with
              | Option.none => .error (invalid_format_msg args)
              | some sb =>
                  .ok ⟨b, parity_map par, bytesize_map db, stopbits_map sb⟩
  | _ => .error (invalid_format_msg args)

/-! ## `start` -/

/-- The tail of `start()` after the transport is open: `reboot()` is a
print-only stub, then `_wait_for_boot()` with its default 5s budget; a
`False` result raises `TimeoutError("device boot timeout")`. -/
def start_rest (profile : OSProfile) (now : Nat) (boot : List BootAttempt)
    (s : SessionState) : PyM SessionState :=
  PyM.bind (wait_for_boot profile.crash_keys profile.prompt (now + 5) boot s)
    (fun p => if p.2 then PyM.ok p.1 else PyM.err (.timeoutError "device boot timeout"))

/-- `start()`: decode `exec_args` when non-empty (a decode failure
propagates as the ValueError), open the transport, reboot (stub), and wait
for the prompt.  A successful `serial.Serial` open is part of the
environment assumption. -/
def start (profile : OSProfile) (exec_args : String) (now : Nat)
    (boot : List BootAttempt) (s : SessionState) : PyM SessionState :=
  if exec_args ≠ "" then
    match decode_exec_args exec_args with
    | .error msg => PyM.err (.valueError msg)
    | .ok _ => start_rest profile now boot { s with ser := true }
  else start_rest profile now boot { s with ser := true }

/-! ## Helper lemmas -/

theorem PyM.bind_eq_ok {α β : Type} {ma : PyM α} {f : α → PyM β} {b : β}
    (h : PyM.bind ma f = PyM.ok b) : ∃ a, ma = PyM.ok a ∧ f a = PyM.ok b := by
  cases ma with
  | none => exact absurd h (by simp [PyM.bind, PyM.ok])
  | some x =>
    cases x with
    | error e =>
      simp only [PyM.bind, PyM.ok] at h
      injection h with h2
      injection h2
    | ok a => exact ⟨a, rfl, h⟩

theorem PyM.bind_eq_some {α β : Type} {ma : PyM α} {f : α → PyM β}
    {r : Except PyErr β} (h : PyM.bind ma f = some r) :
    (∃ e, ma = PyM.err e ∧ r = .error e) ∨ ∃ a, ma = PyM.ok a ∧ f a = some r := by
  cases ma with
  | none => exact absurd h (by simp [PyM.bind])
  | some x =>
    cases x with
    | error e =>
      simp only [PyM.bind] at h
      injection h with h2
      exact .inl ⟨e, rfl, h2.symm⟩
    | ok a => exact .inr ⟨a, rfl, h⟩

/-- The loop of `_read_all` never touches `_ser`, and the two health flags
are one-way: they are only ever set, never cleared. -/
theorem read_all_loop_mono {keys : List (List Nat)} {end_time : Nat} :
    ∀ {iters : List Iter} {s : SessionState} {output : List Nat}
      {s2 : SessionState} {out2 : List Nat},
      read_all_loop keys end_time iters s output = some (s2, out2) →
      s2.ser = s.ser ∧ (s.crash = true → s2.crash = true) ∧
        (s.busy_loop = true → s2.busy_loop = true) := by
  intro iters
  induction iters with
  | nil => intro s output s2 out2 h; simp [read_all_loop] at h
  | cons it rest ih =>
    intro s output s2 out2 h
    simp only [read_all_loop] at h
    split at h
    · simp only [Option.some.injEq, Prod.mk.injEq] at h
      obtain ⟨h1, -⟩ := h
      subst h1
      exact ⟨rfl, fun _ => rfl, fun hb => hb⟩
    · split at h
      · simp only [Option.some.injEq, Prod.mk.injEq] at h
        obtain ⟨h1, -⟩ := h
        subst h1
        exact ⟨rfl, fun hc => hc, fun _ => rfl⟩
      · split at h
        · simp only [Option.some.injEq, Prod.mk.injEq] at h
          obtain ⟨h1, -⟩ := h
          subst h1
          unfold next_last
          split
          · exact ⟨rfl, fun hc => hc, fun hb => hb⟩
          · exact ⟨rfl, fun hc => hc, fun hb => hb⟩
        · have hmono := ih h
          unfold next_last at hmono
          split at hmono
          · exact hmono
          · exact ⟨hmono.1, hmono.2.1, hmono.2.2⟩

/-- If a crash marker occurs in the raw output a `_read_all` loop run
accumulated, the crash flag is set when the loop returns. -/
theorem read_all_loop_crash {keys : List (List Nat)} {end_time : Nat} :
    ∀ {iters : List Iter} {s : SessionState} {output : List Nat}
      {s2 : SessionState} {out2 : List Nat},
      read_all_loop keys end_time iters s output = some (s2, out2) →
      any_crash_key keys out2 = true → s2.crash = true := by
  intro iters
  induction iters with
  | nil => intro s output s2 out2 h; simp [read_all_loop] at h
  | cons it rest ih =>
    intro s output s2 out2 h hk
    simp only [read_all_loop] at h
    split at h
    · simp only [Option.some.injEq, Prod.mk.injEq] at h
      obtain ⟨h1, -⟩ := h
      subst h1
      rfl
    · rename_i hnk
      split at h
      · simp only [Option.some.injEq, Prod.mk.injEq] at h
        obtain ⟨-, h2⟩ := h
        subst h2
        exact absurd hk (by simp [hnk])
      · split at h
        · simp only [Option.some.injEq, Prod.mk.injEq] at h
          obtain ⟨-, h2⟩ := h
          subst h2
          exact absurd hk (by simp [hnk])
        · exact ih h hk

/-- The spec-side condition under which a `_read_all` loop run trips the
busy-loop flag: some reachable poll iteration reads an empty chunk while
the last-activity timestamp is set (nonzero) and more than 180 seconds
old, with no crash marker in the output accumulated up to and including
that iteration, and no earlier exit. -/
inductive BusyTrip (keys : List (List Nat)) (end_time : Nat) :
    List Iter → SessionState → List Nat → Prop
  | here {it : Iter} {rest : List Iter} {s : SessionState} {output : List Nat} :
      any_crash_key keys (output ++ read s it.chunk) = false →
      read s it.chunk = [] →
      s.busy_loop_last ≠ 0 →
      180 < it.now - s.busy_loop_last →
      BusyTrip keys end_time (it :: rest) s output
  | step {it : Iter} {rest : List Iter} {s : SessionState} {output : List Nat} :
      any_crash_key keys (output ++ read s it.chunk) = false →
      ¬(read s it.chunk = [] ∧ s.busy_loop_last ≠ 0 ∧
          180 < it.now - s.busy_loop_last) →
      ¬(end_time < it.now) →
      BusyTrip keys end_time rest (next_last s it) (output ++ read s it.chunk) →
      BusyTrip keys end_time (it :: rest) s output

/-- On a run of the `_read_all` loop that starts with the busy flag clear,
the returned state has the busy flag set exactly when some iteration
satisfies the trip condition (`BusyTrip`). -/
theorem read_all_loop_busy_iff {keys : List (List Nat)} {end_time : Nat} :
    ∀ {iters : List Iter} {s : SessionState} {output : List Nat}
      {s2 : SessionState} {out2 : List Nat},
      s.busy_loop = false →
      read_all_loop keys end_time iters s output = some (s2, out2) →
      (s2.busy_loop = true ↔ BusyTrip keys end_time iters s output) := by
  intro iters
  induction iters with
  | nil => intro s output s2 out2 _ h; simp [read_all_loop] at h
  | cons it rest ih =>
    intro s output s2 out2 hb h
    simp only [read_all_loop] at h
    split at h
    · rename_i hck
      simp only [Option.some.injEq, Prod.mk.injEq] at h
      obtain ⟨h1, -⟩ := h
      subst h1
      constructor
      · intro hbusy
        exact absurd hbusy (by simp [hb])
      · intro htrip
        cases htrip with
        | here hk _ _ _ => exact absurd hck (by simp [hk])
        | step hk _ _ _ => exact absurd hck (by simp [hk])
    · rename_i hck
      split at h
      · rename_i hcond
        simp only [Option.some.injEq, Prod.mk.injEq] at h
        obtain ⟨h1, -⟩ := h
        subst h1
        constructor
        · intro _
          exact BusyTrip.here (by simpa using hck) hcond.1 hcond.2.1 hcond.2.2
        · intro _
          rfl
      · rename_i hcond
        split at h
        · rename_i htime
          simp only [Option.some.injEq, Prod.mk.injEq] at h
          obtain ⟨h1, -⟩ := h
          subst h1
          have hb2 : (next_last s it).busy_loop = false := by
            unfold next_last
            split
            · exact hb
            · exact hb
          constructor
          · intro hbusy
            exact absurd hbusy (by simp [hb2])
          · intro htrip
            cases htrip with
            | here hk hemp hlast hgap => exact absurd ⟨hemp, hlast, hgap⟩ hcond
            | step _ _ ht _ => exact absurd htime ht
        · rename_i htime
          have hb2 : (next_last s it).busy_loop = false := by
            unfold next_last
            split
            · exact hb
            · exact hb
          have hiff := ih hb2 h
          constructor
          · intro hbusy
            exact BusyTrip.step (by simpa using hck) hcond htime (hiff.mp hbusy)
          · intro htrip
            cases htrip with
            | here hk hemp hlast hgap => exact absurd ⟨hemp, hlast, hgap⟩ hcond
            | step _ _ _ hrec => exact hiff.mpr hrec

theorem pairEq {α β : Type} {a c : α} {b d : β} (h : (a, b) = (c, d)) :
    a = c ∧ b = d := by
  injection h with h1 h2
  exact ⟨h1, h2⟩

theorem PyM.bind_ok_left {α β : Type} (a : α) (f : α → PyM β) :
    PyM.bind (PyM.ok a) f = f a := rfl

theorem PyM.bind_err_left {α β : Type} (e : PyErr) (f : α → PyM β) :
    PyM.bind (PyM.err e) f = PyM.err e := rfl

theorem PyM.ok_inj {α : Type} {a b : α} (h : PyM.ok a = PyM.ok b) : a = b := by
  simp only [PyM.ok, Option.some.injEq] at h
  injection h with h2

theorem PyM.err_ne_ok {α : Type} {e : PyErr} {a : α} : PyM.err e ≠ PyM.ok a := by
  intro h
  simp only [PyM.err, PyM.ok, Option.some.injEq] at h
  exact Except.noConfusion h

theorem PyM.fuel_ne_ok {α : Type} {a : α} : PyM.fuel ≠ PyM.ok a := by
  intro h
  simp [PyM.fuel, PyM.ok] at h

/-- What a successful `_read_all` call implies: the transport was open, and
the result is either the unhealthy short-circuit or a completed loop run. -/
theorem read_all_eq_ok {keys : List (List Nat)} {now timeout : Nat}
    {iters : List Iter} {s s2 : SessionState} {out : List Nat}
    (h : read_all keys now timeout iters s = PyM.ok (s2, out)) :
    s.ser = true ∧
      ((dev_is_health s = false ∧ s2 = s ∧ out = []) ∨
        (dev_is_health s = true ∧ ∃ raw,
          read_all_loop keys (now + timeout) iters s [] = some (s2, raw) ∧
            out = ansiStrip raw)) := by
  unfold read_all at h
  split at h
  · exact absurd h PyM.err_ne_ok
  · rename_i hser
    split at h
    · rename_i hh
      have hpq := pairEq (PyM.ok_inj h)
      refine ⟨by simpa using hser, .inl ⟨by simpa using hh, hpq.1.symm, hpq.2.symm⟩⟩
    · rename_i hh
      split at h
      · exact absurd h PyM.fuel_ne_ok
      · rename_i s3 raw heq
        have hpq := pairEq (PyM.ok_inj h)
        refine ⟨by simpa using hser, .inr ⟨by simpa using hh, raw, ?_, hpq.2.symm⟩⟩
        rw [hpq.1] at heq
        exact heq

/-- A failed `_read_all` call can only be the not-open IOError. -/
theorem read_all_eq_err {keys : List (List Nat)} {now timeout : Nat}
    {iters : List Iter} {s : SessionState} {e : PyErr}
    (h : read_all keys now timeout iters s = PyM.err e) : s.ser = false := by
  unfold read_all at h
  split at h
  · rename_i hser
    simpa using hser
  · split at h
    · exact absurd h.symm PyM.err_ne_ok
    · split at h
      · exact absurd h (by simp [PyM.fuel, PyM.err])
      · exact absurd h.symm PyM.err_ne_ok

/-- `_read_all` preserves `_ser` and never clears the health flags. -/
theorem read_all_mono {keys : List (List Nat)} {now timeout : Nat}
    {iters : List Iter} {s s2 : SessionState} {out : List Nat}
    (h : read_all keys now timeout iters s = PyM.ok (s2, out)) :
    s2.ser = s.ser ∧ (s.crash = true → s2.crash = true) ∧
      (s.busy_loop = true → s2.busy_loop = true) := by
  obtain ⟨-, hc⟩ := read_all_eq_ok h
  cases hc with
  | inl hc =>
    obtain ⟨-, h1, -⟩ := hc
    subst h1
    exact ⟨rfl, fun hc => hc, fun hb => hb⟩
  | inr hc =>
    obtain ⟨-, raw, heq, -⟩ := hc
    exact read_all_loop_mono heq

/-- `_write` preserves `_ser` and never clears the health flags. -/
theorem write_mono {keys : List (List Nat)} {echo : ReadEnv}
    {s s2 : SessionState} {data w : List Nat}
    (h : write keys echo s data = PyM.ok (s2, w)) :
    s2.ser = s.ser ∧ (s.crash = true → s2.crash = true) ∧
      (s.busy_loop = true → s2.busy_loop = true) := by
  unfold write at h
  split at h
  · exact absurd h PyM.err_ne_ok
  · split at h
    · have hpq := pairEq (PyM.ok_inj h)
      rw [← hpq.1]
      exact ⟨rfl, fun hc => hc, fun hb => hb⟩
    · split at h
      · exact absurd h PyM.err_ne_ok
      · obtain ⟨p, hp, hf⟩ := PyM.bind_eq_ok h
        have hpq := pairEq (PyM.ok_inj hf)
        rw [← hpq.1]
        exact read_all_mono hp

/-- `send_command` preserves `_ser` and never clears the health flags. -/
theorem send_command_mono {keys : List (List Nat)} {env : SendCmdEnv}
    {s s2 : SessionState} {cmd rsp w : List Nat} {timeout : Nat}
    (h : send_command keys env s cmd timeout = PyM.ok (s2, rsp, w)) :
    s2.ser = s.ser ∧ (s.crash = true → s2.crash = true) ∧
      (s.busy_loop = true → s2.busy_loop = true) := by
  unfold send_command at h
  split at h
  · exact absurd h PyM.err_ne_ok
  · obtain ⟨p1, hp1, h⟩ := PyM.bind_eq_ok h
    obtain ⟨p2, hp2, h⟩ := PyM.bind_eq_ok h
    obtain ⟨p3, hp3, h⟩ := PyM.bind_eq_ok h
    have h1 := read_all_mono hp1
    have h2 := write_mono hp2
    have h3 := read_all_mono hp3
    have hout := pairEq (PyM.ok_inj h)
    rw [← hout.1]
    exact ⟨by rw [h3.1, h2.1, h1.1], fun hc => h3.2.1 (h2.2.1 (h1.2.1 hc)),
      fun hb => h3.2.2 (h2.2.2 (h1.2.2 hb))⟩

/-- The canonical capped form of an accumulator: its most recent
10000-byte suffix (the whole list when it is no longer than the cap). -/
def cap_suffix (l : List Nat) : List Nat := l.drop (l.length - 10000)

theorem trunc_eq_cap_suffix (l : List Nat) : trunc l = cap_suffix l := by
  unfold trunc cap_suffix
  split
  · rfl
  · rename_i hle
    have h0 : l.length - 10000 = 0 := by omega
    rw [h0, List.drop_zero]

theorem cap_suffix_length (l : List Nat) : (cap_suffix l).length ≤ 10000 := by
  unfold cap_suffix
  rw [List.length_drop]
  omega

theorem cap_suffix_suffix (l : List Nat) : cap_suffix l <:+ l :=
  List.drop_suffix _ _

theorem cap_suffix_append (a c : List Nat) :
    cap_suffix (cap_suffix a ++ c) = cap_suffix (a ++ c) := by
  unfold cap_suffix
  have hlen : (a.drop (a.length - 10000)).length = a.length - (a.length - 10000) :=
    List.length_drop _ _
  by_cases hc : c.length ≤ 10000
  · have h1 : (a.drop (a.length - 10000) ++ c).length - 10000 ≤
        (a.drop (a.length - 10000)).length := by
      rw [List.length_append, hlen]
      omega
    have h2 : (a ++ c).length - 10000 ≤ a.length := by
      rw [List.length_append]
      omega
    rw [List.drop_append_of_le_length h1, List.drop_append_of_le_length h2,
      List.drop_drop]
    have e3 : a.length - 10000 + ((a.drop (a.length - 10000) ++ c).length - 10000) =
        (a ++ c).length - 10000 := by
      rw [List.length_append, List.length_append, hlen]
      omega
    rw [e3]
  · have e1 : (a.drop (a.length - 10000) ++ c).length - 10000 =
        (a.drop (a.length - 10000)).length + (c.length - 10000) := by
      rw [List.length_append, hlen]
      omega
    have e2 : (a ++ c).length - 10000 = a.length + (c.length - 10000) := by
      rw [List.length_append]
      omega
    rw [e1, e2, List.drop_append, List.drop_append]

theorem cap_suffix_idem (a : List Nat) : cap_suffix (cap_suffix a) = cap_suffix a := by
  have h := cap_suffix_append a []
  simpa using h

theorem cap_suffix_congr {a b : List Nat} (h : cap_suffix a = cap_suffix b)
    (c : List Nat) : cap_suffix (a ++ c) = cap_suffix (b ++ c) := by
  rw [← cap_suffix_append a c, h, cap_suffix_append]

/-! ### `bytesFind` and substring membership -/

theorem bytesFindAux_isSome (pat : List Nat) :
    ∀ (s : List Nat) (i : Nat), (bytesFindAux pat s i).isSome = inBytes pat s := by
  intro s
  induction s with
  | nil =>
    intro i
    unfold bytesFindAux inBytes
    cases pat with
    | nil => simp [List.isPrefixOf]
    | cons c cs => simp [List.isPrefixOf]
  | cons c cs ih =>
    intro i
    unfold bytesFindAux inBytes
    by_cases hp : pat.isPrefixOf (c :: cs)
    · simp [hp]
    · simp only [hp, if_false, Bool.false_or]
      · exact ih (i + 1)

theorem bytesFind_isSome (pat s : List Nat) :
    (bytesFind pat s).isSome = inBytes pat s :=
  bytesFindAux_isSome pat s 0

theorem inBytes_iff_infix (pat : List Nat) :
    ∀ s : List Nat, inBytes pat s = true ↔ pat <:+: s := by
  intro s
  induction s with
  | nil =>
    unfold inBytes
    rw [List.isEmpty_iff, List.infix_nil]
  | cons c cs ih =>
    unfold inBytes
    rw [Bool.or_eq_true, List.isPrefixOf_iff_prefix, ih, List.infix_cons_iff]

theorem bytesFind_none_iff (pat s : List Nat) :
    bytesFind pat s = none ↔ ¬ pat <:+: s := by
  rw [← inBytes_iff_infix, ← bytesFind_isSome]
  cases bytesFind pat s <;> simp

/-! ### The match loop -/

/-- Exits of the match loop determine the final search outcome on the
returned accumulator: SUCCESS reports the leftmost span found there,
TIMEOUT means the last search failed. -/
theorem pat_loop_exit {keys : List (List Nat)} {pattern : List Nat} {end_time : Nat} :
    ∀ {iters : List PatIter} {s : SessionState} {out tot : List Nat}
      {s2 : SessionState} {out2 : List Nat} {ex : PatOut}
      {tr : List (List Nat × List Nat)},
      pat_loop keys pattern end_time iters s out tot = PyM.ok (s2, out2, ex, tr) →
      (∀ span, ex = .success span → bytesFind pattern out2 = some span) ∧
        (ex = .timedOut → bytesFind pattern out2 = none) := by
  intro iters
  induction iters with
  | nil =>
    intro s out tot s2 out2 ex tr h
    exact absurd h PyM.fuel_ne_ok
  | cons it rest ih =>
    intro s out tot s2 out2 ex tr h
    simp only [pat_loop] at h
    obtain ⟨p, hp, h⟩ := PyM.bind_eq_ok h
    split at h
    · rename_i span hfind
      have hA := pairEq (PyM.ok_inj h)
      have hB := pairEq hA.2
      have hC := pairEq hB.2
      constructor
      · intro sp hsp
        rw [← hC.1] at hsp
        injection hsp with hspan
        rw [← hB.1, ← hspan]
        exact hfind
      · intro hto
        rw [← hC.1] at hto
        exact absurd hto (by simp)
    · rename_i hfind
      split at h
      · have hA := pairEq (PyM.ok_inj h)
        have hB := pairEq hA.2
        have hC := pairEq hB.2
        constructor
        · intro sp hsp
          rw [← hC.1] at hsp
          exact absurd hsp (by simp)
        · intro _
          rw [← hB.1]
          exact hfind
      · split at h
        · have hA := pairEq (PyM.ok_inj h)
          have hB := pairEq hA.2
          have hC := pairEq hB.2
          constructor
          · intro sp hsp
            rw [← hC.1] at hsp
            exact absurd hsp (by simp)
          · intro hto
            rw [← hC.1] at hto
            exact absurd hto (by simp)
        · obtain ⟨q, hq', h⟩ := PyM.bind_eq_ok h
          have hA := pairEq (PyM.ok_inj h)
          have hB := pairEq hA.2
          have hC := pairEq hB.2
          have hrec := ih hq'
          constructor
          · intro sp hsp
            rw [← hC.1] at hsp
            rw [← hB.1]
            exact hrec.1 sp hsp
          · intro hto
            rw [← hC.1] at hto
            rw [← hB.1]
            exact hrec.2 hto

/-- The match loop preserves `_ser` and never clears the health flags. -/
theorem pat_loop_mono {keys : List (List Nat)} {pattern : List Nat} {end_time : Nat} :
    ∀ {iters : List PatIter} {s : SessionState} {out tot : List Nat}
      {s2 : SessionState} {out2 : List Nat} {ex : PatOut}
      {tr : List (List Nat × List Nat)},
      pat_loop keys pattern end_time iters s out tot = PyM.ok (s2, out2, ex, tr) →
      s2.ser = s.ser ∧ (s.crash = true → s2.crash = true) ∧
        (s.busy_loop = true → s2.busy_loop = true) := by
  intro iters
  induction iters with
  | nil =>
    intro s out tot s2 out2 ex tr h
    exact absurd h PyM.fuel_ne_ok
  | cons it rest ih =>
    intro s out tot s2 out2 ex tr h
    simp only [pat_loop] at h
    obtain ⟨p, hp, h⟩ := PyM.bind_eq_ok h
    have hm := read_all_mono hp
    split at h
    · have hA := pairEq (PyM.ok_inj h)
      rw [← hA.1]
      exact hm
    · split at h
      · have hA := pairEq (PyM.ok_inj h)
        rw [← hA.1]
        exact hm
      · split at h
        · have hA := pairEq (PyM.ok_inj h)
          rw [← hA.1]
          exact hm
        · obtain ⟨q, hq', h⟩ := PyM.bind_eq_ok h
          have hA := pairEq (PyM.ok_inj h)
          have hrec := ih hq'
          rw [← hA.1]
          exact ⟨by rw [hrec.1, hm.1], fun hc => hrec.2.1 (hm.2.1 hc),
            fun hb => hrec.2.2 (hm.2.2 hb)⟩

/-- Every accumulator the match loop hands to `re.search` is the canonical
capped suffix of the total output read so far: at most 10000 bytes, and a
suffix of the total. -/
theorem pat_loop_trace {keys : List (List Nat)} {pattern : List Nat} {end_time : Nat} :
    ∀ {iters : List PatIter} {s : SessionState} {out tot : List Nat}
      {s2 : SessionState} {out2 : List Nat} {ex : PatOut}
      {tr : List (List Nat × List Nat)},
      pat_loop keys pattern end_time iters s out tot = PyM.ok (s2, out2, ex, tr) →
      cap_suffix out = cap_suffix tot →
      ∀ e ∈ tr, e.1 = cap_suffix e.2 ∧ e.1.length ≤ 10000 ∧ e.1 <:+ e.2 := by
  intro iters
  induction iters with
  | nil =>
    intro s out tot s2 out2 ex tr h
    exact absurd h PyM.fuel_ne_ok
  | cons it rest ih =>
    intro s out tot s2 out2 ex tr h hinv
    simp only [pat_loop] at h
    obtain ⟨p, hp, h⟩ := PyM.bind_eq_ok h
    have hentry : trunc (out ++ p.2) = cap_suffix (tot ++ p.2) := by
      rw [trunc_eq_cap_suffix, cap_suffix_congr hinv]
    have hlen2 : (trunc (out ++ p.2)).length ≤ 10000 := by
      rw [trunc_eq_cap_suffix]
      exact cap_suffix_length _
    have hsuf : trunc (out ++ p.2) <:+ tot ++ p.2 := by
      rw [hentry]
      exact cap_suffix_suffix _
    have hprops : ∀ e : List Nat × List Nat, e = (trunc (out ++ p.2), tot ++ p.2) →
        e.1 = cap_suffix e.2 ∧ e.1.length ≤ 10000 ∧ e.1 <:+ e.2 := by
      intro e he
      subst he
      exact ⟨hentry, hlen2, hsuf⟩
    have hinv2 : cap_suffix (trunc (out ++ p.2)) = cap_suffix (tot ++ p.2) := by
      rw [trunc_eq_cap_suffix, cap_suffix_idem, cap_suffix_congr hinv]
    split at h
    · have hA := pairEq (PyM.ok_inj h)
      have hB := pairEq hA.2
      have hC := pairEq hB.2
      intro e he
      rw [← hC.2] at he
      simp only [List.mem_singleton] at he
      subst he
      exact hprops _ rfl
    · split at h
      · have hA := pairEq (PyM.ok_inj h)
        have hB := pairEq hA.2
        have hC := pairEq hB.2
        intro e he
        rw [← hC.2] at he
        simp only [List.mem_singleton] at he
        subst he
        exact hprops _ rfl
      · split at h
        · have hA := pairEq (PyM.ok_inj h)
          have hB := pairEq hA.2
          have hC := pairEq hB.2
          intro e he
          rw [← hC.2] at he
          simp only [List.mem_singleton] at he
          subst he
          exact hprops _ rfl
        · obtain ⟨q, hq', h⟩ := PyM.bind_eq_ok h
          have hA := pairEq (PyM.ok_inj h)
          have hB := pairEq hA.2
          have hC := pairEq hB.2
          intro e he
          rw [← hC.2] at he
          cases List.mem_cons.mp he with
          | inl he0 =>
            subst he0
            exact hprops _ rfl
          | inr hmem => exact ih hq' hinv2 e hmem

theorem PyM.ok_ne_err {α : Type} {a : α} {e : PyErr} : PyM.ok a ≠ PyM.err e :=
  fun h => PyM.err_ne_ok h.symm

theorem PyM.bind_eq_err {α β : Type} {ma : PyM α} {f : α → PyM β} {e : PyErr}
    (h : PyM.bind ma f = PyM.err e) :
    ma = PyM.err e ∨ ∃ a, ma = PyM.ok a ∧ f a = PyM.err e := by
  cases ma with
  | none => exact absurd h (by simp [PyM.bind, PyM.err])
  | some x =>
    cases x with
    | error e2 =>
      simp only [PyM.bind, PyM.err, Option.some.injEq] at h
      injection h with h2
      exact .inl (by rw [PyM.err, h2])
    | ok a => exact .inr ⟨a, rfl, h⟩

/-- `_write` can only raise the not-open IOError or the `data[-1]`
IndexError on an empty command. -/
theorem write_eq_err {keys : List (List Nat)} {echo : ReadEnv}
    {s : SessionState} {data : List Nat} {e : PyErr}
    (h : write keys echo s data = PyM.err e) : s.ser = false ∨ data = [] := by
  unfold write at h
  split at h
  · rename_i hser
    exact .inl (by simpa using hser)
  · split at h
    · exact absurd h PyM.ok_ne_err
    · split at h
      · rename_i hlast
        exact .inr (List.getLast?_eq_none_iff.mp hlast)
      · cases PyM.bind_eq_err h with
        | inl h1 => exact .inl (read_all_eq_err h1)
        | inr h1 =>
          obtain ⟨p, -, hf⟩ := h1
          exact absurd hf PyM.ok_ne_err

/-- `send_command` can only raise the not-ready IOError or, through
`_write`, the IndexError on an empty command. -/
theorem send_command_eq_err {keys : List (List Nat)} {env : SendCmdEnv}
    {s : SessionState} {cmd : List Nat} {timeout : Nat} {e : PyErr}
    (h : send_command keys env s cmd timeout = PyM.err e) :
    s.ser = false ∨ cmd = [] := by
  unfold send_command at h
  split at h
  · rename_i hser
    exact .inl (by simpa using hser)
  · cases PyM.bind_eq_err h with
    | inl h1 => exact .inl (read_all_eq_err h1)
    | inr h1 =>
      obtain ⟨p1, hp1, h1⟩ := h1
      cases PyM.bind_eq_err h1 with
      | inl h2 =>
        cases write_eq_err h2 with
        | inl hws =>
          refine .inl ?_
          rw [← (read_all_mono hp1).1]
          exact hws
        | inr hd => exact .inr hd
      | inr h2 =>
        obtain ⟨p2, hp2, h2⟩ := h2
        cases PyM.bind_eq_err h2 with
        | inl h3 =>
          refine .inl ?_
          rw [← (read_all_mono hp1).1, ← (write_mono hp2).1]
          exact read_all_eq_err h3
        | inr h3 =>
          obtain ⟨p3, -, hf⟩ := h3
          exact absurd hf PyM.ok_ne_err

/-- `send_cmd_read_until_pattern` preserves `_ser` and never clears the
health flags. -/
theorem send_cmd_read_until_pattern_mono {keys : List (List Nat)} {env : PatEnv}
    {s s2 : SessionState} {cmd pattern : List Nat} {timeout : Nat}
    {r : CmdReturn} {tr : List (List Nat × List Nat)}
    (h : send_cmd_read_until_pattern keys env s cmd pattern timeout =
      PyM.ok (s2, r, tr)) :
    s2.ser = s.ser ∧ (s.crash = true → s2.crash = true) ∧
      (s.busy_loop = true → s2.busy_loop = true) := by
  unfold send_cmd_read_until_pattern at h
  obtain ⟨p0, hp0, h⟩ := PyM.bind_eq_ok h
  obtain ⟨p1, hp1, h⟩ := PyM.bind_eq_ok h
  obtain ⟨q, hq, h⟩ := PyM.bind_eq_ok h
  have m0 := read_all_mono hp0
  have m1 := send_command_mono hp1
  have m2 := pat_loop_mono hq
  have hs2 : q.1 = s2 := by
    split at h
    · exact (pairEq (PyM.ok_inj h)).1
    · exact (pairEq (PyM.ok_inj h)).1
    · exact absurd h PyM.err_ne_ok
  rw [← hs2]
  exact ⟨by rw [m2.1, m1.1, m0.1], fun hc => m2.2.1 (m1.2.1 (m0.2.1 hc)),
    fun hb => m2.2.2 (m1.2.2 (m0.2.2 hb))⟩

/-- `write_ctrl` and `send_ctrl_cmd` never change the session state. -/
theorem write_ctrl_eq_ok {s s2 : SessionState} {c : Char}
    (h : write_ctrl s c = PyM.ok s2) : s2 = s := by
  unfold write_ctrl at h
  split at h
  · exact absurd h PyM.err_ne_ok
  · split at h
    · exact (PyM.ok_inj h).symm
    · split at h
      · exact absurd h PyM.err_ne_ok
      · exact (PyM.ok_inj h).symm

theorem send_ctrl_cmd_state {s s2 : SessionState} {c : Char} {st : CmdStatus}
    (h : send_ctrl_cmd s c = PyM.ok (s2, st)) : s2 = s := by
  unfold send_ctrl_cmd at h
  split at h
  · exact absurd h PyM.err_ne_ok
  · obtain ⟨s1, hs1, h⟩ := PyM.bind_eq_ok h
    have := pairEq (PyM.ok_inj h)
    rw [← this.1]
    exact write_ctrl_eq_ok hs1

/-- The spec-side condition under which the boot poll sees the prompt:
some attempt made before the deadline gets a response (as computed by
`send_command(b"\n", 1)`) containing the prompt bytes, all earlier
attempts having missed it. -/
inductive PromptSeen (keys : List (List Nat)) (prompt : List Nat) (end_time : Nat) :
    List BootAttempt → SessionState → Prop
  | here {att : BootAttempt} {rest : List BootAttempt} {s : SessionState}
      {p : SessionState × List Nat × List Nat} :
      att.now < end_time →
      send_command keys att.env s [10] 1 = PyM.ok p →
      inBytes prompt p.2.1 = true →
      PromptSeen keys prompt end_time (att :: rest) s
  | step {att : BootAttempt} {rest : List BootAttempt} {s : SessionState}
      {p : SessionState × List Nat × List Nat} :
      att.now < end_time →
      send_command keys att.env s [10] 1 = PyM.ok p →
      inBytes prompt p.2.1 = false →
      PromptSeen keys prompt end_time rest p.1 →
      PromptSeen keys prompt end_time (att :: rest) s

/-- A completed `_wait_for_boot` run returns True exactly when some boot
attempt saw the prompt. -/
theorem wait_for_boot_ok_iff {keys : List (List Nat)} {prompt : List Nat}
    {end_time : Nat} :
    ∀ {boot : List BootAttempt} {s s2 : SessionState} {b : Bool},
      wait_for_boot keys prompt end_time boot s = PyM.ok (s2, b) →
      (b = true ↔ PromptSeen keys prompt end_time boot s) := by
  intro boot
  induction boot with
  | nil =>
    intro s s2 b h
    exact absurd h PyM.fuel_ne_ok
  | cons att rest ih =>
    intro s s2 b h
    simp only [wait_for_boot] at h
    split at h
    · rename_i htime
      obtain ⟨p, hp, h⟩ := PyM.bind_eq_ok h
      split at h
      · rename_i hin
        have hA := pairEq (PyM.ok_inj h)
        constructor
        · intro _
          exact PromptSeen.here htime hp hin
        · intro _
          exact hA.2.symm
      · rename_i hin
        have hiff := ih h
        constructor
        · intro hb
          exact PromptSeen.step htime hp (by simpa using hin) (hiff.mp hb)
        · intro hseen
          cases hseen with
          | here ht' hp' hin' =>
            rw [hp] at hp'
            have hpp := PyM.ok_inj hp'
            rw [← hpp] at hin'
            exact absurd hin' hin
          | step ht' hp' hin' hrec =>
            rw [hp] at hp'
            have hpp := PyM.ok_inj hp'
            rw [← hpp] at hrec
            exact hiff.mpr hrec
    · rename_i htime
      have hA := pairEq (PyM.ok_inj h)
      constructor
      · intro hb
        rw [← hA.2] at hb
        exact absurd hb (by simp)
      · intro hseen
        cases hseen with
        | here ht' _ _ => exact absurd ht' htime
        | step ht' _ _ _ => exact absurd ht' htime

/-- On an open transport, `_wait_for_boot` never raises. -/
theorem wait_for_boot_ne_err {keys : List (List Nat)} {prompt : List Nat}
    {end_time : Nat} :
    ∀ {boot : List BootAttempt} {s : SessionState} {e : PyErr},
      s.ser = true → wait_for_boot keys prompt end_time boot s ≠ PyM.err e := by
  intro boot
  induction boot with
  | nil =>
    intro s e _ h
    simp [wait_for_boot, PyM.fuel, PyM.err] at h
  | cons att rest ih =>
    intro s e hs h
    simp only [wait_for_boot] at h
    split at h
    · cases PyM.bind_eq_err h with
      | inl h1 =>
        cases send_command_eq_err h1 with
        | inl h2 =>
          rw [hs] at h2
          exact Bool.noConfusion h2
        | inr h2 => simp at h2
      | inr h1 =>
        obtain ⟨p, hp, h1⟩ := h1
        split at h1
        · exact absurd h1 PyM.ok_ne_err
        · have hser2 : p.1.ser = true := by
            rw [(send_command_mono hp).1]
            exact hs
          exact ih hser2 h1
    · exact absurd h PyM.ok_ne_err

/-- `_wait_for_boot` preserves `_ser` and never clears the health flags. -/
theorem wait_for_boot_mono {keys : List (List Nat)} {prompt : List Nat}
    {end_time : Nat} :
    ∀ {boot : List BootAttempt} {s s2 : SessionState} {b : Bool},
      wait_for_boot keys prompt end_time boot s = PyM.ok (s2, b) →
      s2.ser = s.ser ∧ (s.crash = true → s2.crash = true) ∧
        (s.busy_loop = true → s2.busy_loop = true) := by
  intro boot
  induction boot with
  | nil =>
    intro s s2 b h
    exact absurd h PyM.fuel_ne_ok
  | cons att rest ih =>
    intro s s2 b h
    simp only [wait_for_boot] at h
    split at h
    · obtain ⟨p, hp, h⟩ := PyM.bind_eq_ok h
      have hm := send_command_mono hp
      split at h
      · have hA := pairEq (PyM.ok_inj h)
        rw [← hA.1]
        exact hm
      · have hrec := ih h
        exact ⟨by rw [hrec.1, hm.1], fun hc => hrec.2.1 (hm.2.1 hc),
          fun hb => hrec.2.2 (hm.2.2 hb)⟩
    · have hA := pairEq (PyM.ok_inj h)
      rw [← hA.1]
      exact ⟨rfl, fun hc => hc, fun hb => hb⟩

/-- `start` never clears the health flags. -/
theorem start_mono {profile : OSProfile} {exec_args : String} {now : Nat}
    {boot : List BootAttempt} {s s2 : SessionState}
    (h : start profile exec_args now boot s = PyM.ok s2) :
    (s.crash = true → s2.crash = true) ∧
      (s.busy_loop = true → s2.busy_loop = true) := by
  have hrest : ∀ s' : SessionState,
      start_rest profile now boot s' = PyM.ok s2 →
      (s'.crash = true → s2.crash = true) ∧
        (s'.busy_loop = true → s2.busy_loop = true) := by
    intro s' h'
    unfold start_rest at h'
    obtain ⟨p, hp, h'⟩ := PyM.bind_eq_ok h'
    have hm := wait_for_boot_mono hp
    split at h'
    · have := PyM.ok_inj h'
      rw [← this]
      exact ⟨hm.2.1, hm.2.2⟩
    · exact absurd h' PyM.err_ne_ok
  unfold start at h
  split at h
  · split at h
    · exact absurd h PyM.err_ne_ok
    · exact hrest { s with ser := true } h
  · exact hrest { s with ser := true } h

/-! ### Connection-string decoding lemmas -/

theorem decode_error_iff (args : String) :
    (∃ e, decode_exec_args args = Except.error e) ↔
      ¬ ∃ b p d st, pySplitComma args = [b, p, d, st] ∧
        (pyIntParse b).isSome = true ∧ (pyIntParse d).isSome = true ∧
        (pyFloatParse st).isSome = true := by
  constructor
  · rintro ⟨e, he⟩ ⟨b, p, d, st, hsplit, hb, hd, hst⟩
    obtain ⟨bi, hbi⟩ := Option.isSome_iff_exists.mp hb
    obtain ⟨di, hdi⟩ := Option.isSome_iff_exists.mp hd
    obtain ⟨sti, hsti⟩ := Option.isSome_iff_exists.mp hst
    have hok : decode_exec_args args =
        Except.ok ⟨bi, parity_map p, bytesize_map di, stopbits_map sti⟩ := by
      unfold decode_exec_args
      rw [hsplit]
      dsimp only
      rw [hbi, hdi, hsti]
    rw [hok] at he
    exact Except.noConfusion he
  · intro hbad
    by_cases h4 : ∃ b p d st, pySplitComma args = [b, p, d, st]
    · obtain ⟨b, p, d, st, hsplit⟩ := h4
      cases hbi : pyIntParse b with
      | none =>
        refine ⟨invalid_format_msg args, ?_⟩
        unfold decode_exec_args
        rw [hsplit]
        dsimp only
        rw [hbi]
      | some bi =>
        cases hdi : pyIntParse d with
        | none =>
          refine ⟨invalid_format_msg args, ?_⟩
          unfold decode_exec_args
          rw [hsplit]
          dsimp only
          rw [hbi, hdi]
        | some di =>
          cases hsti : pyFloatParse st with
          | none =>
            refine ⟨invalid_format_msg args, ?_⟩
            unfold decode_exec_args
            rw [hsplit]
            dsimp only
            rw [hbi, hdi, hsti]
          | some sti =>
            exact absurd ⟨b, p, d, st, hsplit, by simp [hbi], by simp [hdi],
              by simp [hsti]⟩ hbad
    · refine ⟨invalid_format_msg args, ?_⟩
      unfold decode_exec_args
      rcases hsplit : pySplitComma args with - | ⟨a1, - | ⟨a2, - | ⟨a3, - | ⟨a4, - | ⟨a5, tail⟩⟩⟩⟩⟩
      · rfl
      · rfl
      · rfl
      · rfl
      · exact absurd ⟨a1, a2, a3, a4, hsplit⟩ h4
      · rfl

theorem decode_error_msg (args : String) :
    ∀ e, decode_exec_args args = Except.error e → e = invalid_format_msg args := by
  intro e h
  unfold decode_exec_args at h
  split at h
  · split at h
    · injection h with h2
      exact h2.symm
    · split at h
      · injection h with h2
        exact h2.symm
      · split at h
        · injection h with h2
          exact h2.symm
        · exact Except.noConfusion h
  · injection h with h2
    exact h2.symm

theorem decode_ok_defaults (args : String) :
    ∀ (b p d st : String) (r : ExecArgsDecoded),
      pySplitComma args = [b, p, d, st] →
      decode_exec_args args = Except.ok r →
      ((p ≠ "n" ∧ p ≠ "N" ∧ p ≠ "e" ∧ p ≠ "E" ∧ p ≠ "o" ∧ p ≠ "O" ∧
          p ≠ "m" ∧ p ≠ "M" ∧ p ≠ "s" ∧ p ≠ "S") → r.parity = Parity.none) ∧
        (∀ n : Int, pyIntParse d = some n →
          (n ≠ 5 ∧ n ≠ 6 ∧ n ≠ 7 ∧ n ≠ 8) → r.bytesize = 8) ∧
        (∀ q : ℚ, pyFloatParse st = some q →
          (q ≠ 1 ∧ q ≠ Rat.divInt 3 2 ∧ q ≠ 2) → r.stopbits = 1) := by
  intro b p d st r hsplit hok
  unfold decode_exec_args at hok
  rw [hsplit] at hok
  dsimp only at hok
  cases hbi : pyIntParse b with
  | none =>
    rw [hbi] at hok
    exact absurd hok (by simp)
  | some bi =>
    rw [hbi] at hok
    cases hdi : pyIntParse d with
    | none =>
      rw [hdi] at hok
      exact absurd hok (by simp)
    | some di =>
      rw [hdi] at hok
      cases hsti : pyFloatParse st with
      | none =>
        rw [hsti] at hok
        exact absurd hok (by simp)
      | some sti =>
        rw [hsti] at hok
        injection hok with hr
        subst hr
        refine ⟨?_, ?_, ?_⟩
        · rintro ⟨h1, h2, h3, h4, h5, h6, h7, h8, h9, h10⟩
          simp [parity_map, h1, h2, h3, h4, h5, h6, h7, h8, h9, h10]
        · intro n hn hne
          injection hn with hn2
          subst hn2
          obtain ⟨e5, e6, e7, e8⟩ := hne
          simp [bytesize_map, e5, e6, e7, e8]
        · intro q hq hne
          injection hq with hq2
          subst hq2
          obtain ⟨e1, e2, e3⟩ := hne
          simp [stopbits_map, e1, e2, e3]

/-! ## Claim theorems -/

/-- Claim C1: the claim says a `send_cmd_read_until_pattern` call on a
crashed session, whose pattern does not match the empty output and whose
deadline has not elapsed, returns a `CmdReturn` with empty output and
status defaulting to TIMEOUT.  On the code, the unhealthy loop exit is
taken with the local `ret` never assigned, so building the `CmdReturn`
raises `UnboundLocalError` instead (no transport I/O is attempted — every
read short-circuits to empty on the unhealthy session). -/
theorem c1_crashed_session_unbound_ret :
    send_cmd_read_until_pattern [[75]]
        ⟨⟨0, []⟩, ⟨⟨0, []⟩, ⟨0, []⟩, ⟨0, []⟩⟩, 0, [⟨⟨0, []⟩, 0⟩]⟩
        ⟨true, true, false, 0⟩ [97] [98] 100 =
      PyM.err (PyErr.unboundLocalError "ret") ∧
    bytesFind [98] [] = none ∧ ¬(0 + 100 < 0) :=
  ⟨rfl, rfl, by simp⟩

/-- Claim C2: the claim says `send_ctrl_cmd(ch)` on an open, healthy
session writes the single raw control byte and returns SUCCESS.  On the
code, `_write_ctrl` evaluates `bytes([c])` with `c` a one-character str,
which raises `TypeError` before anything reaches the transport. -/
theorem c2_send_ctrl_cmd_raises_type_error :
    send_ctrl_cmd ⟨true, false, false, 0⟩ (Char.ofNat 3) =
      PyM.err PyErr.typeError ∧
    dev_is_health ⟨true, false, false, 0⟩ = true :=
  ⟨rfl, rfl⟩

/-- Claim C3, counterexample: with no non-empty chunk ever received since
session start (`_busy_loop_last` still 0), a `_read_all` loop run that
stays silent for more than 180 seconds exits by timeout with the busy
flag still false, because the code guards the busy check with the
falsiness of `_busy_loop_last`; the claim as stated says the flag should
become true in this case. -/
theorem c3_no_busy_flag_without_prior_activity :
    read_all_loop [[75]] 190 [⟨[], 200⟩] ⟨true, false, false, 0⟩ [] =
      some (⟨true, false, false, 0⟩, []) ∧
    (⟨true, false, false, 0⟩ : SessionState).busy_loop = false ∧
    180 < 200 - 0 :=
  ⟨rfl, rfl, by norm_num⟩

/-- Claim C3, amended: on a run of the `_read_all` loop starting with the
busy flag clear, the flag is set on return iff some poll iteration reads
an empty chunk while the last-activity timestamp is set (nonzero — i.e. a
non-empty chunk has been seen before) and more than 180 seconds old, with
no crash marker in the accumulated output; when those conditions hold at
an iteration, the loop aborts there immediately, regardless of its
nominal deadline and of any remaining iterations; and a non-empty chunk
resets the last-activity clock to the current time. -/
theorem c3_busy_loop_characterization :
    (∀ (keys : List (List Nat)) (end_time : Nat) (iters : List Iter)
        (s : SessionState) (output : List Nat) (s2 : SessionState)
        (out2 : List Nat),
        s.busy_loop = false →
        read_all_loop keys end_time iters s output = some (s2, out2) →
        (s2.busy_loop = true ↔ BusyTrip keys end_time iters s output)) ∧
    (∀ (keys : List (List Nat)) (end_time : Nat) (it : Iter)
        (rest : List Iter) (s : SessionState) (output : List Nat),
        any_crash_key keys (output ++ read s it.chunk) = false →
        read s it.chunk = [] → s.busy_loop_last ≠ 0 →
        180 < it.now - s.busy_loop_last →
        read_all_loop keys end_time (it :: rest) s output =
          some ({ s with busy_loop := true, busy_loop_last := 0 },
            output ++ read s it.chunk)) ∧
    (∀ (keys : List (List Nat)) (end_time : Nat) (it : Iter)
        (rest : List Iter) (s : SessionState) (output : List Nat),
        any_crash_key keys (output ++ read s it.chunk) = false →
        read s it.chunk ≠ [] → ¬(end_time < it.now) →
        read_all_loop keys end_time (it :: rest) s output =
          read_all_loop keys end_time rest { s with busy_loop_last := it.now }
            (output ++ read s it.chunk)) := by
  refine ⟨?_, ?_, ?_⟩
  · intro keys end_time iters s output s2 out2 hb h
    exact read_all_loop_busy_iff hb h
  · intro keys end_time it rest s output hck hemp hlast hgap
    simp only [read_all_loop]
    rw [if_neg (by simp [hck]), if_pos ⟨hemp, hlast, hgap⟩]
  · intro keys end_time it rest s output hck hne htime
    simp only [read_all_loop]
    rw [if_neg (by simp [hck]), if_neg (by simp [hne]), if_neg htime]
    unfold next_last
    rw [if_neg hne]

theorem c3_busy_loop_characterization_witness :
    read_all_loop [[75]] 1000 [⟨[], 200⟩] ⟨true, false, false, 10⟩ [] =
      some (⟨true, false, true, 0⟩, []) ∧
    BusyTrip [[75]] 1000 [⟨[], 200⟩] ⟨true, false, false, 10⟩ [] :=
  ⟨rfl, (c3_busy_loop_characterization.1 [[75]] 1000 [⟨[], 200⟩]
    ⟨true, false, false, 10⟩ [] ⟨true, false, true, 0⟩ [] rfl rfl).mp rfl⟩

/-- Claim C4: the claim says `_write` appends a newline only when the
command does not already end with one.  On the code, `data[-1]` is an int
and `b"\n"` is bytes, so `data[-1] != b"\n"` is always True and the
newline is always appended: writing `b"ls\n"` puts `b"ls\n\n"` on the
transport, a duplicated trailing newline. -/
theorem c4_write_always_appends_newline :
    write [[75]] ⟨0, [⟨[], 1⟩]⟩ ⟨true, false, false, 0⟩ [108, 115, 10] =
      PyM.ok (⟨true, false, false, 0⟩, [108, 115, 10, 10]) ∧
    pyEq (PyVal.vint 10) (PyVal.vbytes [10]) = false ∧
    [108, 115, 10, 10] ≠ [108, 115, 10] :=
  ⟨rfl, rfl, by decide⟩

/-- Claim C5, counterexample: `"115200,n,x,1"` splits into exactly 4
fields, yet decoding raises the invalid-format error (via `int("x")`)
instead of falling back to the 8-data-bits default; the claim says a
4-field string never fails. -/
theorem c5_four_field_nonnumeric_raises :
    pySplitComma "115200,n,x,1" = ["115200", "n", "x", "1"] ∧
    decode_exec_args "115200,n,x,1" =
      Except.error (invalid_format_msg "115200,n,x,1") :=
  ⟨rfl, rfl⟩

/-- Claim C5, amended: decoding fails iff the string does not split into
exactly 4 comma-separated fields with an int-parsable baud field, an
int-parsable data-bits field and a float-parsable stop-bits field; every
failure carries the original string in its message; and on success,
unknown parity letters fall back to no parity, integer data-bits values
outside 5..8 fall back to 8, and float stop-bits values outside
\x7b1, 1.5, 2\x7d fall back to 1. -/
theorem c5_decode_characterization :
    (∀ args : String,
      (∃ e, decode_exec_args args = Except.error e) ↔
        ¬ ∃ b p d st, pySplitComma args = [b, p, d, st] ∧
          (pyIntParse b).isSome = true ∧ (pyIntParse d).isSome = true ∧
          (pyFloatParse st).isSome = true) ∧
    (∀ (args : String) (e : String),
      decode_exec_args args = Except.error e → e = invalid_format_msg args) ∧
    (∀ (args b p d st : String) (r : ExecArgsDecoded),
      pySplitComma args = [b, p, d, st] →
      decode_exec_args args = Except.ok r →
      ((p ≠ "n" ∧ p ≠ "N" ∧ p ≠ "e" ∧ p ≠ "E" ∧ p ≠ "o" ∧ p ≠ "O" ∧
          p ≠ "m" ∧ p ≠ "M" ∧ p ≠ "s" ∧ p ≠ "S") → r.parity = Parity.none) ∧
        (∀ n : Int, pyIntParse d = some n →
          (n ≠ 5 ∧ n ≠ 6 ∧ n ≠ 7 ∧ n ≠ 8) → r.bytesize = 8) ∧
        (∀ q : ℚ, pyFloatParse st = some q →
          (q ≠ 1 ∧ q ≠ Rat.divInt 3 2 ∧ q ≠ 2) → r.stopbits = 1)) :=
  ⟨decode_error_iff, decode_error_msg, decode_ok_defaults⟩

theorem c5_decode_characterization_witness :
    decode_exec_args "1,q,9,3" = Except.ok ⟨1, Parity.none, 8, 1⟩ ∧
    (⟨1, Parity.none, 8, 1⟩ : ExecArgsDecoded).parity = Parity.none ∧
    (⟨1, Parity.none, 8, 1⟩ : ExecArgsDecoded).bytesize = 8 ∧
    (⟨1, Parity.none, 8, 1⟩ : ExecArgsDecoded).stopbits = 1 := by
  have h := c5_decode_characterization.2.2 "1,q,9,3" "1" "q" "9" "3"
    ⟨1, Parity.none, 8, 1⟩ rfl rfl
  refine ⟨rfl, ?_, ?_, ?_⟩
  · exact h.1 (by refine ⟨?_, ?_, ?_, ?_, ?_, ?_, ?_, ?_, ?_, ?_⟩ <;> decide)
  · exact h.2.1 9 rfl ⟨by decide, by decide, by decide, by decide⟩
  · exact h.2.2 (Rat.divInt 3 1) rfl ⟨by decide, by decide, by decide⟩

/-- Claim C6: once a crash marker occurs in the raw output a `_read_all`
loop run accumulated, the crash flag is set when the loop returns; and
both health flags are one-way latches — every engine operation
(`_read_all`, `_write`, `send_command`, `send_cmd_read_until_pattern`,
`send_ctrl_cmd`, `_wait_for_boot`, `start`) preserves a set crash or
busy-loop flag, none ever clears one. -/
theorem c6_crash_flag_latch :
    (∀ (keys : List (List Nat)) (end_time : Nat) (iters : List Iter)
        (s : SessionState) (output out2 : List Nat) (s2 : SessionState),
        read_all_loop keys end_time iters s output = some (s2, out2) →
        any_crash_key keys out2 = true → s2.crash = true) ∧
    (∀ (keys : List (List Nat)) (now timeout : Nat) (iters : List Iter)
        (s s2 : SessionState) (out : List Nat),
        read_all keys now timeout iters s = PyM.ok (s2, out) →
        (s.crash = true → s2.crash = true) ∧
          (s.busy_loop = true → s2.busy_loop = true)) ∧
    (∀ (keys : List (List Nat)) (echo : ReadEnv) (s s2 : SessionState)
        (data w : List Nat),
        write keys echo s data = PyM.ok (s2, w) →
        (s.crash = true → s2.crash = true) ∧
          (s.busy_loop = true → s2.busy_loop = true)) ∧
    (∀ (keys : List (List Nat)) (env : SendCmdEnv) (s s2 : SessionState)
        (cmd rsp w : List Nat) (timeout : Nat),
        send_command keys env s cmd timeout = PyM.ok (s2, rsp, w) →
        (s.crash = true → s2.crash = true) ∧
          (s.busy_loop = true → s2.busy_loop = true)) ∧
    (∀ (keys : List (List Nat)) (env : PatEnv) (s s2 : SessionState)
        (cmd pattern : List Nat) (timeout : Nat) (r : CmdReturn)
        (tr : List (List Nat × List Nat)),
        send_cmd_read_until_pattern keys env s cmd pattern timeout =
          PyM.ok (s2, r, tr) →
        (s.crash = true → s2.crash = true) ∧
          (s.busy_loop = true → s2.busy_loop = true)) ∧
    (∀ (s s2 : SessionState) (c : Char) (st : CmdStatus),
        send_ctrl_cmd s c = PyM.ok (s2, st) → s2 = s) ∧
    (∀ (keys : List (List Nat)) (prompt : List Nat) (end_time : Nat)
        (boot : List BootAttempt) (s s2 : SessionState) (b : Bool),
        wait_for_boot keys prompt end_time boot s = PyM.ok (s2, b) →
        (s.crash = true → s2.crash = true) ∧
          (s.busy_loop = true → s2.busy_loop = true)) ∧
    (∀ (profile : OSProfile) (exec_args : String) (now : Nat)
        (boot : List BootAttempt) (s s2 : SessionState),
        start profile exec_args now boot s = PyM.ok s2 →
        (s.crash = true → s2.crash = true) ∧
          (s.busy_loop = true → s2.busy_loop = true)) := by
  refine ⟨?_, ?_, ?_, ?_, ?_, ?_, ?_, ?_⟩
  · intro keys end_time iters s output out2 s2 h hk
    exact read_all_loop_crash h hk
  · intro keys now timeout iters s s2 out h
    exact ⟨(read_all_mono h).2.1, (read_all_mono h).2.2⟩
  · intro keys echo s s2 data w h
    exact ⟨(write_mono h).2.1, (write_mono h).2.2⟩
  · intro keys env s s2 cmd rsp w timeout h
    exact ⟨(send_command_mono h).2.1, (send_command_mono h).2.2⟩
  · intro keys env s s2 cmd pattern timeout r tr h
    exact ⟨(send_cmd_read_until_pattern_mono h).2.1,
      (send_cmd_read_until_pattern_mono h).2.2⟩
  · intro s s2 c st h
    exact send_ctrl_cmd_state h
  · intro keys prompt end_time boot s s2 b h
    exact ⟨(wait_for_boot_mono h).2.1, (wait_for_boot_mono h).2.2⟩
  · intro profile exec_args now boot s s2 h
    exact start_mono h

theorem c6_crash_flag_latch_witness :
    read_all_loop [[75]] 1000 [⟨[75], 0⟩] ⟨true, false, false, 0⟩ [] =
      some (⟨true, true, false, 0⟩, [75]) ∧
    (⟨true, true, false, 0⟩ : SessionState).crash = true :=
  ⟨rfl, c6_crash_flag_latch.1 [[75]] 1000 [⟨[75], 0⟩] ⟨true, false, false, 0⟩
    [] [75] ⟨true, true, false, 0⟩ rfl rfl⟩

/-- Claim C7: `valid_match()` holds iff status is SUCCESS and a match is
present; and every `CmdReturn` that `send_cmd_read_until_pattern`
actually returns keeps the two in agreement — a match is present exactly
under SUCCESS, and whenever the returned output contains a substring
matching the pattern the status is SUCCESS with `valid_match()` true. -/
theorem c7_valid_match_agreement :
    (∀ r : CmdReturn, r.valid_match = true ↔
      (r.status = CmdStatus.SUCCESS ∧ r.rematch.isSome = true)) ∧
    (∀ (keys : List (List Nat)) (env : PatEnv) (s : SessionState)
        (cmd pattern : List Nat) (timeout : Nat) (s2 : SessionState)
        (r : CmdReturn) (tr : List (List Nat × List Nat)),
        send_cmd_read_until_pattern keys env s cmd pattern timeout =
          PyM.ok (s2, r, tr) →
        ((r.rematch.isSome = true ↔ r.status = CmdStatus.SUCCESS) ∧
          (pattern <:+: r.output →
            r.status = CmdStatus.SUCCESS ∧ r.valid_match = true))) := by
  constructor
  · intro r
    obtain ⟨st, rm, out⟩ := r
    cases st <;> cases rm <;> simp [CmdReturn.valid_match] <;> decide
  · intro keys env s cmd pattern timeout s2 r tr h
    unfold send_cmd_read_until_pattern at h
    obtain ⟨p0, hp0, h⟩ := PyM.bind_eq_ok h
    obtain ⟨p1, hp1, h⟩ := PyM.bind_eq_ok h
    obtain ⟨q, hq, h⟩ := PyM.bind_eq_ok h
    have hexit := pat_loop_exit hq
    split at h
    · rename_i span hspan
      have hA := pairEq (PyM.ok_inj h)
      have hB := pairEq hA.2
      rw [← hB.1]
      refine ⟨by simp, ?_⟩
      intro _
      exact ⟨rfl, rfl⟩
    · rename_i hspan
      have hA := pairEq (PyM.ok_inj h)
      have hB := pairEq hA.2
      rw [← hB.1]
      have hfind := hexit.2 hspan
      refine ⟨by simp, ?_⟩
      intro hinf
      exact absurd hinf (by simpa using (bytesFind_none_iff pattern q.2.1).mp hfind)
    · exact absurd h PyM.err_ne_ok

theorem c7_valid_match_agreement_witness :
    (⟨CmdStatus.SUCCESS, some (0, 1), [62]⟩ : CmdReturn).status =
      CmdStatus.SUCCESS ∧
    (⟨CmdStatus.SUCCESS, some (0, 1), [62]⟩ : CmdReturn).valid_match = true := by
  have h := (c7_valid_match_agreement.2 [[75]]
    ⟨⟨0, [⟨[], 2⟩]⟩, ⟨⟨0, [⟨[], 1⟩]⟩, ⟨0, [⟨[], 1⟩]⟩, ⟨0, [⟨[62], 2⟩]⟩⟩, 0,
      [⟨⟨0, [⟨[], 2⟩]⟩, 0⟩]⟩
    ⟨true, false, false, 0⟩ [97] [62] 100 ⟨true, false, false, 2⟩
    ⟨CmdStatus.SUCCESS, some (0, 1), [62]⟩ [([62], [62])] rfl).2
  exact h (List.infix_rfl)

/-- Claim C8: every accumulator `send_cmd_read_until_pattern` hands to
the pattern search holds at most 10000 bytes; it is always the canonical
capped suffix of the output read so far — in particular, whenever the
total exceeds the cap, the searched accumulator is exactly its most
recent 10000-byte suffix. -/
theorem c8_accumulator_cap :
    ∀ (keys : List (List Nat)) (env : PatEnv) (s : SessionState)
      (cmd pattern : List Nat) (timeout : Nat) (s2 : SessionState)
      (r : CmdReturn) (tr : List (List Nat × List Nat)),
      send_cmd_read_until_pattern keys env s cmd pattern timeout =
        PyM.ok (s2, r, tr) →
      ∀ e ∈ tr, e.1.length ≤ 10000 ∧ e.1 = cap_suffix e.2 ∧ e.1 <:+ e.2 := by
  intro keys env s cmd pattern timeout s2 r tr h
  unfold send_cmd_read_until_pattern at h
  obtain ⟨p0, hp0, h⟩ := PyM.bind_eq_ok h
  obtain ⟨p1, hp1, h⟩ := PyM.bind_eq_ok h
  obtain ⟨q, hq, h⟩ := PyM.bind_eq_ok h
  have htr : q.2.2.2 = tr := by
    split at h
    · exact (pairEq (pairEq (PyM.ok_inj h)).2).2
    · exact (pairEq (pairEq (PyM.ok_inj h)).2).2
    · exact absurd h PyM.err_ne_ok
  intro e he
  rw [← htr] at he
  have hprop := pat_loop_trace hq rfl e he
  exact ⟨hprop.2.1, hprop.1, hprop.2.2⟩

theorem c8_accumulator_cap_witness :
    ([62] : List Nat).length ≤ 10000 ∧ ([62] : List Nat) = cap_suffix [62] ∧
      ([62] : List Nat) <:+ [62] := by
  have h := c8_accumulator_cap [[75]]
    ⟨⟨0, [⟨[], 2⟩]⟩, ⟨⟨0, [⟨[], 1⟩]⟩, ⟨0, [⟨[], 1⟩]⟩, ⟨0, [⟨[62], 2⟩]⟩⟩, 0,
      [⟨⟨0, [⟨[], 2⟩]⟩, 0⟩]⟩
    ⟨true, false, false, 0⟩ [97] [62] 100 ⟨true, false, false, 2⟩
    ⟨CmdStatus.SUCCESS, some (0, 1), [62]⟩ [([62], [62])] rfl
    ([62], [62]) (by simp)
  exact h

/-- Claim C9: `start()` returns normally only if some boot attempt within
the 5-second budget saw the profile prompt in a response, and when no
attempt sees the prompt, a completed `start()` raises
`TimeoutError("device boot timeout")` instead of returning. -/
theorem c9_start_boot_prompt :
    (∀ (profile : OSProfile) (now : Nat) (boot : List BootAttempt)
        (s s2 : SessionState),
        start profile "" now boot s = PyM.ok s2 →
        PromptSeen profile.crash_keys profile.prompt (now + 5) boot
          { s with ser := true }) ∧
    (∀ (profile : OSProfile) (now : Nat) (boot : List BootAttempt)
        (s : SessionState) (r : Except PyErr SessionState),
        start profile "" now boot s = some r →
        ¬ PromptSeen profile.crash_keys profile.prompt (now + 5) boot
          { s with ser := true } →
        r = Except.error (PyErr.timeoutError "device boot timeout")) := by
  have hstart : ∀ (profile : OSProfile) (now : Nat) (boot : List BootAttempt)
      (s : SessionState),
      start profile "" now boot s =
        start_rest profile now boot { s with ser := true } := by
    intro profile now boot s
    unfold start
    rw [if_neg (by simp)]
  constructor
  · intro profile now boot s s2 h
    rw [hstart] at h
    unfold start_rest at h
    obtain ⟨p, hp, h⟩ := PyM.bind_eq_ok h
    split at h
    · rename_i hb
      exact (wait_for_boot_ok_iff hp).mp hb
    · exact absurd h PyM.err_ne_ok
  · intro profile now boot s r h hns
    rw [hstart] at h
    unfold start_rest at h
    cases PyM.bind_eq_some h with
    | inl h1 =>
      obtain ⟨e, he, -⟩ := h1
      exact absurd he (wait_for_boot_ne_err rfl)
    | inr h1 =>
      obtain ⟨p, hp, h1⟩ := h1
      split at h1
      · rename_i hb
        exact absurd ((wait_for_boot_ok_iff hp).mp hb) hns
      · simp only [PyM.err, Option.some.injEq] at h1
        exact h1.symm

theorem c9_start_boot_prompt_witness :
    start ⟨[62], [[75]]⟩ "" 0
        [⟨0, ⟨⟨0, [⟨[], 1⟩]⟩, ⟨0, [⟨[], 1⟩]⟩, ⟨0, [⟨[62], 2⟩]⟩⟩⟩]
        ⟨false, false, false, 0⟩ = PyM.ok ⟨true, false, false, 2⟩ ∧
    PromptSeen [[75]] [62] 5
      [⟨0, ⟨⟨0, [⟨[], 1⟩]⟩, ⟨0, [⟨[], 1⟩]⟩, ⟨0, [⟨[62], 2⟩]⟩⟩⟩]
      ⟨true, false, false, 0⟩ :=
  ⟨rfl, c9_start_boot_prompt.1 ⟨[62], [[75]]⟩ 0
    [⟨0, ⟨⟨0, [⟨[], 1⟩]⟩, ⟨0, [⟨[], 1⟩]⟩, ⟨0, [⟨[62], 2⟩]⟩⟩⟩]
    ⟨false, false, false, 0⟩ ⟨true, false, false, 2⟩ rfl⟩

/-- Claim C10: `send_command` with the empty command `b""` on an open,
healthy session (still healthy after the stale-output drain) reaches
`data[-1]` in `_write` on an empty byte string and raises IndexError. -/
theorem c10_send_command_empty_cmd_index_error :
    ∀ (keys : List (List Nat)) (env : SendCmdEnv) (s s1 : SessionState)
      (g : List Nat) (timeout : Nat),
      dev_is_health s = true →
      read_all keys env.drain.time 0 env.drain.iters s = PyM.ok (s1, g) →
      dev_is_health s1 = true →
      send_command keys env s [] timeout = PyM.err PyErr.indexError := by
  intro keys env s s1 g timeout hh hdrain hh1
  have hser : s.ser = true := by
    unfold dev_is_health at hh
    simp only [Bool.and_eq_true] at hh
    exact hh.1.1
  have hser1 : s1.ser = true := by
    unfold dev_is_health at hh1
    simp only [Bool.and_eq_true] at hh1
    exact hh1.1.1
  have hw : write keys env.echo s1 [] = PyM.err PyErr.indexError := by
    unfold write
    rw [if_neg (by simp [hser1]), if_neg (by simp [hh1])]
    rfl
  unfold send_command
  rw [if_neg (by simp [hser]), hdrain, PyM.bind_ok_left]
  show PyM.bind (write keys env.echo s1 []) _ = _
  rw [hw, PyM.bind_err_left]

theorem c10_send_command_empty_cmd_index_error_witness :
    dev_is_health ⟨true, false, false, 0⟩ = true ∧
    read_all [[75]] 0 0 [⟨[], 1⟩] ⟨true, false, false, 0⟩ =
      PyM.ok (⟨true, false, false, 0⟩, []) ∧
    send_command [[75]] ⟨⟨0, [⟨[], 1⟩]⟩, ⟨0, [⟨[], 1⟩]⟩, ⟨0, [⟨[], 1⟩]⟩⟩
        ⟨true, false, false, 0⟩ [] 1 = PyM.err PyErr.indexError :=
  ⟨rfl, rfl, c10_send_command_empty_cmd_index_error [[75]]
    ⟨⟨0, [⟨[], 1⟩]⟩, ⟨0, [⟨[], 1⟩]⟩, ⟨0, [⟨[], 1⟩]⟩⟩ ⟨true, false, false, 0⟩
    ⟨true, false, false, 0⟩ [] 1 rfl rfl rfl⟩

end Ntfc
